import Mathlib

/-!
Verification of the circulation core of the digital-library programs
(src/apa.py, src/apipi.py, src/apo.py).

The main embedding follows src/apa.py (src/apipi.py is line-for-line the
same on the core logic): a catalog of books keyed by id, a FIFO queue of
borrow requests, and a LIFO history stack of undoable actions.  The
Python dict is modelled as an association list of `Book` values with the
id stored in the record (dict insertion appends a fresh key at the end;
update replaces the value in place; delete removes the key).  The
`time` fields of requests and history entries are display-only floats
and are omitted.  `save_db` / `load_db` are external persistence and are
out of scope of the claims treated here.

A second, separate embedding near the end models src/apo.py with an
explicit object heap, because that variant pushes live object
references (not copies) onto its undo stack, and claim C9 is about
exactly that distinction.
-/

/-- A book record, from class `Book` in src/apa.py.  Python integers are
unbounded, so `pages` and `copies` are modelled as `Int`; non-negativity
of `copies` is an invariant to be proved, not a typing assumption. -/
structure Book where
  book_id : String
  title : String
  author : String
  pages : Int
  copies : Int
  deriving Repr, DecidableEq

/-- Structural errors raised by the catalog operations:
`ValueError("Book ID already exists.")` and `KeyError("Book not found.")`. -/
inductive LibError where
  | duplicateId
  | notFound
  deriving Repr, DecidableEq

/-- Dict membership test plus value lookup: `self.books[book_id]` on a dict
with unique keys finds the (first) record with the given id. -/
def findBook (books : List Book) (bid : String) : Option Book :=
  books.find? (fun b => b.book_id == bid)

/-- Replace the (first) record with the given id by `f` of it, leaving the
rest of the list untouched; ids are unique on reachable states, so this is
the in-place mutation of the dict value in the Python code. -/
def updateFirst (books : List Book) (bid : String) (f : Book → Book) : List Book :=
  match books with
  | [] => []
  | b :: rest => if b.book_id == bid then f b :: rest else b :: updateFirst rest bid f

/-- Remove the (first) record with the given id: `del self.books[book_id]`. -/
def deleteFirst (books : List Book) (bid : String) : List Book :=
  match books with
  | [] => []
  | b :: rest => if b.book_id == bid then rest else b :: deleteFirst rest bid

/-- `Library.add_book` (src/apa.py lines 52-56): duplicate id raises,
otherwise the dict gains the new key at the end of iteration order. -/
def add_book (books : List Book) (b : Book) : Except LibError (List Book) :=
  if (findBook books b.book_id).isSome then .error .duplicateId
  else .ok (books ++ [b])

/-- The keyword-argument patch accepted by `Library.update_book`:
a field is updated exactly when the keyword is present. -/
structure Patch where
  title : Option String
  author : Option String
  pages : Option Int
  copies : Option Int
  deriving Repr, DecidableEq

/-- Apply a patch to a record, field by field. -/
def applyPatch (p : Patch) (b : Book) : Book :=
  { book_id := b.book_id
    title := p.title.getD b.title
    author := p.author.getD b.author
    pages := p.pages.getD b.pages
    copies := p.copies.getD b.copies }

/-- `Library.update_book` (src/apa.py lines 58-67). -/
def update_book (books : List Book) (bid : String) (p : Patch) :
    Except LibError (List Book) :=
  if (findBook books bid).isSome then .ok (updateFirst books bid (applyPatch p))
  else .error .notFound

/-- `Library.delete_book` (src/apa.py lines 69-74). -/
def delete_book (books : List Book) (bid : String) : Except LibError (List Book) :=
  if (findBook books bid).isSome then .ok (deleteFirst books bid)
  else .error .notFound

/-- `Library.borrow_book` (src/apa.py lines 85-94): absent id raises;
with stock, decrement and report `True`; without stock, report `False`. -/
def borrow_book (books : List Book) (bid : String) :
    Except LibError (Bool × List Book) :=
  match findBook books bid with
  | none => .error .notFound
  | some b =>
    if b.copies > 0 then
      .ok (true, updateFirst books bid (fun x => { x with copies := x.copies - 1 }))
    else
      .ok (false, books)

/-- `Library.return_book` (src/apa.py lines 96-100): absent id raises;
otherwise increment unconditionally. -/
def return_book (books : List Book) (bid : String) : Except LibError (List Book) :=
  match findBook books bid with
  | none => .error .notFound
  | some _ => .ok (updateFirst books bid (fun x => { x with copies := x.copies + 1 }))

/-- A borrow request, from `borrow_enqueue` in src/apa.py (lines 360-361):
`{"request_id": ..., "book_id": bid, "user": user, "time": ...}`.
The `time` field is a display-only float and is omitted. -/
structure Request where
  request_id : String
  book_id : String
  user : String
  deriving Repr, DecidableEq

/-- The closed set of history-entry shapes actually pushed by the code
(the dicts tagged by their `"action"` key), each with the payload the
code stores: an `add`/`delete` entry stores the `to_dict()` snapshot of
the record, an `edit` entry stores before and after snapshots, a
`borrow`/`borrow_failed` entry stores the request, a `return` entry
stores only the record id, and the timed worker pushes an `error` entry
carrying the caught exception. -/
inductive HistoryItem where
  | add (book : Book)
  | edit (before after : Book)
  | delete (book : Book)
  | borrow (req : Request)
  | borrowFailed (req : Request)
  | ret (bid : String)
  | error (e : LibError)
  deriving Repr, DecidableEq

/-- `RequestQueue.dequeue` (src/apa.py lines 140-141): pop from the front
when nonempty, otherwise report `None` and leave the queue as it is. -/
def RequestQueue.dequeue (q : List Request) : Option Request × List Request :=
  match q with
  | [] => (none, [])
  | r :: rest => (some r, rest)

/-- `RequestQueue.enqueue` (src/apa.py lines 138-139): append at the back. -/
def RequestQueue.enqueue (q : List Request) (r : Request) : List Request :=
  q ++ [r]

/-- `HistoryStack.push` (src/apa.py lines 153-154); the top of the stack is
the head of the list. -/
def HistoryStack.push (st : List HistoryItem) (i : HistoryItem) : List HistoryItem :=
  i :: st

/-- `HistoryStack.pop` (src/apa.py lines 155-156): pop the top when
nonempty, otherwise report `None` and leave the stack as it is. -/
def HistoryStack.pop (st : List HistoryItem) : Option HistoryItem × List HistoryItem :=
  match st with
  | [] => (none, [])
  | i :: rest => (some i, rest)

/-- The mutable state of `LibraryApp` that the claims are about: the
catalog, the FIFO request queue and the LIFO history stack. -/
structure AppState where
  books : List Book
  queue : List Request
  history : List HistoryItem
  deriving Repr, DecidableEq

/-- Outcome reported by one manual processing step. -/
inductive ProcResult where
  | queueEmpty
  | done (req : Request) (success : Bool)
  | notFoundFor (req : Request)
  deriving Repr, DecidableEq

/-- Outcome reported by `undo_last`. -/
inductive UndoResult where
  | nothingToUndo
  | undone
  | undoError (e : LibError)
  deriving Repr, DecidableEq

/-- `LibraryApp.process_one_request` (src/apa.py lines 365-386), state
part: empty queue reports and changes nothing; otherwise dequeue one
request and call `borrow_book`; on success push a `borrow` entry, on
no-stock push a `borrow_failed` entry; a raised `KeyError` is caught by
the surrounding `except` and nothing is pushed.  The dequeued request is
never re-enqueued. -/
def process_one_request (s : AppState) : AppState × ProcResult :=
  match RequestQueue.dequeue s.queue with
  | (none, _) => (s, .queueEmpty)
  | (some req, rest) =>
    match borrow_book s.books req.book_id with
    | .error _ => ({ s with queue := rest }, .notFoundFor req)
    | .ok (true, bs) =>
      ({ books := bs, queue := rest,
         history := HistoryStack.push s.history (.borrow req) }, .done req true)
    | .ok (false, bs) =>
      ({ books := bs, queue := rest,
         history := HistoryStack.push s.history (.borrowFailed req) }, .done req false)

/-- `LibraryApp.process_queue_worker` (src/apa.py lines 388-404), state
part (the UI refresh and the `root.after` rescheduling carry no state):
like the manual step, except that an empty queue is silent and a caught
exception pushes an `error` history entry. -/
def process_queue_worker (s : AppState) : AppState :=
  match RequestQueue.dequeue s.queue with
  | (none, _) => s
  | (some req, rest) =>
    match borrow_book s.books req.book_id with
    | .error e =>
      { s with queue := rest, history := HistoryStack.push s.history (.error e) }
    | .ok (true, bs) =>
      { books := bs, queue := rest,
        history := HistoryStack.push s.history (.borrow req) }
    | .ok (false, bs) =>
      { books := bs, queue := rest,
        history := HistoryStack.push s.history (.borrowFailed req) }

/-- `LibraryApp.add_book_dialog` (src/apa.py lines 279-299), state part,
with the dialog input passed as an argument: a duplicate id aborts before
any mutation; otherwise the book is added and an `add` entry holding its
snapshot is pushed. -/
def app_add (s : AppState) (b : Book) : AppState × Option LibError :=
  match add_book s.books b with
  | .error e => (s, some e)
  | .ok bs =>
    ({ s with books := bs, history := HistoryStack.push s.history (.add b) }, none)

/-- `LibraryApp.edit_book_dialog` (src/apa.py lines 301-325), state part,
with the four dialog values passed as arguments: the `before` snapshot is
taken with `to_dict()` prior to `update_book`, and the pushed `edit`
entry holds the before and after snapshots. -/
def app_edit (s : AppState) (bid : String) (t a : String) (pg cp : Int) :
    AppState × Option LibError :=
  match findBook s.books bid with
  | none => (s, some .notFound)
  | some old =>
    let p : Patch := ⟨some t, some a, some pg, some cp⟩
    match update_book s.books bid p with
    | .error e => (s, some e)
    | .ok bs =>
      ({ s with
         books := bs,
         history := HistoryStack.push s.history (.edit old (applyPatch p old)) }, none)

/-- `LibraryApp.delete_book` (src/apa.py lines 327-345), state part: the
snapshot is taken before deletion and pushed as a `delete` entry. -/
def app_delete (s : AppState) (bid : String) : AppState × Option LibError :=
  match findBook s.books bid with
  | none => (s, some .notFound)
  | some b =>
    match delete_book s.books bid with
    | .error e => (s, some e)
    | .ok bs =>
      ({ s with books := bs, history := HistoryStack.push s.history (.delete b) }, none)

/-- `LibraryApp.return_book` (src/apa.py lines 414-428), state part: on
success a `return` entry carrying only the id is pushed; a `KeyError`
from `return_book` is caught and nothing changes. -/
def app_return (s : AppState) (bid : String) : AppState × Option LibError :=
  match return_book s.books bid with
  | .error e => (s, some e)
  | .ok bs =>
    ({ s with books := bs, history := HistoryStack.push s.history (.ret bid) }, none)

/-- `LibraryApp.borrow_enqueue` (src/apa.py lines 350-363), state part. -/
def app_enqueue (s : AppState) (req : Request) : AppState :=
  { s with queue := RequestQueue.enqueue s.queue req }

/-- `LibraryApp.undo_last` (src/apa.py lines 430-471), state part.  The
entry is popped first; the reversal runs inside `try`/`except`, so a
failing reversal is caught after the pop and the entry is not restored.
Reversals: `add` deletes the record if still present; `delete` re-adds
the snapshot (may raise `DuplicateId`); `edit` restores all four fields
of the before snapshot (may raise `NotFound`); `borrow` returns one copy
(may raise `NotFound`); `borrow_failed` reverses nothing; `return`
decrements only when `copies > 0` (indexing may raise `KeyError`). -/
def undo_last (s : AppState) : AppState × UndoResult :=
  match HistoryStack.pop s.history with
  | (none, _) => (s, .nothingToUndo)
  | (some item, rest) =>
    let s0 : AppState := { s with history := rest }
    match item with
    | .add b =>
      if (findBook s0.books b.book_id).isSome then
        match delete_book s0.books b.book_id with
        | .error e => (s0, .undoError e)
        | .ok bs => ({ s0 with books := bs }, .undone)
      else (s0, .undone)
    | .delete b =>
      match add_book s0.books b with
      | .error e => (s0, .undoError e)
      | .ok bs => ({ s0 with books := bs }, .undone)
    | .edit before _ =>
      match update_book s0.books before.book_id
          ⟨some before.title, some before.author, some before.pages, some before.copies⟩ with
      | .error e => (s0, .undoError e)
      | .ok bs => ({ s0 with books := bs }, .undone)
    | .borrow req =>
      match return_book s0.books req.book_id with
      | .error e => (s0, .undoError e)
      | .ok bs => ({ s0 with books := bs }, .undone)
    | .borrowFailed _ => (s0, .undone)
    | .ret bid =>
      match findBook s0.books bid with
      | none => (s0, .undoError .notFound)
      | some b =>
        if b.copies > 0 then
          ({ s0 with
             books := updateFirst s0.books bid (fun x => { x with copies := x.copies - 1 }) },
           .undone)
        else (s0, .undone)
    | .error _ => (s0, .undone)

/-- The requests consumed, in order, by `n` successive manual steps. -/
def runSteps (s : AppState) : Nat → AppState × List Request
  | 0 => (s, [])
  | n + 1 =>
    match process_one_request s with
    | (s1, .queueEmpty) => ((runSteps s1 n).1, (runSteps s1 n).2)
    | (s1, .done req _) => ((runSteps s1 n).1, req :: (runSteps s1 n).2)
    | (s1, .notFoundFor req) => ((runSteps s1 n).1, req :: (runSteps s1 n).2)

/-- Non-negative stock for every record of a catalog. -/
def NonNegBooks (books : List Book) : Prop :=
  ∀ b ∈ books, 0 ≤ b.copies

/-- The stock constraint a history entry must satisfy so that its undo
reversal cannot create negative stock: a `delete` entry re-inserts its
snapshot and an `edit` entry restores the copies of its before snapshot;
the remaining kinds never write an absolute copies value. -/
def itemNonNeg : HistoryItem → Prop
  | .delete b => 0 ≤ b.copies
  | .edit before _ => 0 ≤ before.copies
  | _ => True

/-- The copies-related state invariant: every catalog record and every
stored snapshot that an undo can write back has non-negative copies. -/
def InvState (s : AppState) : Prop :=
  NonNegBooks s.books ∧ ∀ i ∈ s.history, itemNonNeg i

/-!
Embedding of src/apo.py.  That variant keeps `self.books` as a Python
list of `Book` objects and pushes the objects themselves onto
`self.undo_stack` (`("delete", new_book)` in `add_book`,
`("return", book)` in `process_queue`), while `edit_book` mutates the
selected object in place.  Object identity matters there, so the state
carries an explicit heap: `heap` is the object store, an object id is an
index into it, and `books` / `loan_queue` / the undo entries hold object
ids, exactly as the Python variables hold references.
-/

/-- A book of src/apo.py: `title`, `author`, `year` from the entry
widgets and a loan `status` string. -/
structure ApoBook where
  title : String
  author : String
  year : String
  status : String
  deriving Repr, DecidableEq

/-- An entry of the apo.py undo stack, with the payload the code stores:
`("delete", obj)`, `("add", obj)`, `("edit", idx, backup_obj)` and
`("return", obj)`, where each object is held by reference (object id). -/
inductive ApoEntry where
  | del (oid : Nat)
  | add (oid : Nat)
  | edit (idx : Nat) (backup : Nat)
  | ret (oid : Nat)
  deriving Repr, DecidableEq

/-- The mutable state of the apo.py `LibraryApp`, with an explicit
object heap so that reference sharing between `books` and `undo_stack`
is represented faithfully. -/
structure ApoState where
  heap : List ApoBook
  books : List Nat
  loan_queue : List Nat
  undo_stack : List ApoEntry
  deriving Repr, DecidableEq

/-- `LibraryApp.add_book` of src/apo.py (lines 111-124), state part: a
fresh `Book` object is created, appended to `self.books`, and the very
same object (not a copy) is stored in the pushed `("delete", new_book)`
undo entry. -/
def apo_add_book (s : ApoState) (t a y : String) : ApoState :=
  let oid := s.heap.length
  { heap := s.heap ++ [⟨t, a, y, "Tersedia"⟩]
    books := s.books ++ [oid]
    loan_queue := s.loan_queue
    undo_stack := ApoEntry.del oid :: s.undo_stack }

/-- `LibraryApp.edit_book` of src/apo.py (lines 126-140), state part: a
backup copy of the selected object is made into a fresh object, an
`("edit", idx, backup)` entry is pushed, and then the selected object is
mutated in place (title, author, year; status untouched). -/
def apo_edit_book (s : ApoState) (idx : Nat) (t a y : String) : ApoState :=
  match s.books.get? idx with
  | none => s
  | some oid =>
    match s.heap.get? oid with
    | none => s
    | some old =>
      { heap := (s.heap ++ [old]).set oid { old with title := t, author := a, year := y }
        books := s.books
        loan_queue := s.loan_queue
        undo_stack := ApoEntry.edit idx s.heap.length :: s.undo_stack }

/-- The record value an undo-stack entry of src/apo.py refers to at a
given state: the stored reference dereferenced in the current heap. -/
def apoEntryPayload (s : ApoState) : ApoEntry → Option ApoBook
  | .del oid => s.heap.get? oid
  | .add oid => s.heap.get? oid
  | .edit _ backup => s.heap.get? backup
  | .ret oid => s.heap.get? oid

/-! Helper lemmas shared by the claim theorems. -/

theorem findBook_cons (b : Book) (rest : List Book) (bid : String) :
    findBook (b :: rest) bid =
      if b.book_id == bid then some b else findBook rest bid := by
  cases h : b.book_id == bid <;> simp [findBook, List.find?, h]

theorem findBook_mem {books : List Book} {bid : String} {b : Book}
    (h : findBook books bid = some b) : b ∈ books :=
  List.mem_of_find?_eq_some h

theorem findBook_id {books : List Book} {bid : String} {b : Book}
    (h : findBook books bid = some b) : b.book_id = bid := by
  have hp := List.find?_some h
  simpa using hp

theorem updateFirst_updateFirst (books : List Book) (bid : String) (f g : Book → Book)
    (hf : ∀ x, (f x).book_id = x.book_id) :
    updateFirst (updateFirst books bid f) bid g =
      updateFirst books bid (fun x => g (f x)) := by
  induction books with
  | nil => rfl
  | cons b rest ih =>
    cases h : b.book_id == bid with
    | true => simp [updateFirst, h, hf]
    | false => simp [updateFirst, h, ih]

theorem updateFirst_eq_self (books : List Book) (bid : String) (g : Book → Book)
    (hg : ∀ x, g x = x) : updateFirst books bid g = books := by
  induction books with
  | nil => rfl
  | cons b rest ih =>
    cases h : b.book_id == bid with
    | true => simp [updateFirst, h, hg]
    | false => simp [updateFirst, h, ih]

theorem findBook_updateFirst (books : List Book) (bid : String) (f : Book → Book)
    (hf : ∀ x, (f x).book_id = x.book_id) :
    findBook (updateFirst books bid f) bid = (findBook books bid).map f := by
  induction books with
  | nil => rfl
  | cons b rest ih =>
    cases h : b.book_id == bid with
    | true => simp [updateFirst, h, findBook_cons, hf]
    | false => simp [updateFirst, h, findBook_cons, ih]

theorem mem_deleteFirst {books : List Book} {bid : String} {x : Book}
    (h : x ∈ deleteFirst books bid) : x ∈ books := by
  induction books with
  | nil => simp [deleteFirst] at h
  | cons b rest ih =>
    cases hb : b.book_id == bid with
    | true =>
      simp [deleteFirst, hb] at h
      exact List.mem_cons_of_mem _ h
    | false =>
      simp [deleteFirst, hb] at h
      rcases h with rfl | h
      · exact List.mem_cons_self _ _
      · exact List.mem_cons_of_mem _ (ih h)

theorem nonneg_updateFirst {books : List Book} {bid : String} {f : Book → Book} {b : Book}
    (hfind : findBook books bid = some b) (hfb : 0 ≤ (f b).copies)
    (hall : ∀ x ∈ books, 0 ≤ x.copies) :
    ∀ x ∈ updateFirst books bid f, 0 ≤ x.copies := by
  induction books with
  | nil => intro x hx; simp [updateFirst] at hx
  | cons c rest ih =>
    rw [findBook_cons] at hfind
    cases hc : c.book_id == bid with
    | true =>
      rw [hc] at hfind
      simp at hfind
      intro x hx
      simp [updateFirst, hc] at hx
      rcases hx with rfl | hx
      · rw [hfind]; exact hfb
      · exact hall x (List.mem_cons_of_mem _ hx)
    | false =>
      rw [hc] at hfind
      simp at hfind
      intro x hx
      simp [updateFirst, hc] at hx
      rcases hx with rfl | hx
      · exact hall x (List.mem_cons_self _ _)
      · exact ih hfind (fun y hy => hall y (List.mem_cons_of_mem _ hy)) x hx

theorem foldl_enqueue_queue (rs : List Request) (s : AppState) :
    (List.foldl app_enqueue s rs).queue = s.queue ++ rs := by
  induction rs generalizing s with
  | nil => simp
  | cons r rs ih =>
    simp [List.foldl_cons, ih, app_enqueue, RequestQueue.enqueue]

theorem runSteps_consumed (n : Nat) (s : AppState) :
    (runSteps s n).2 = s.queue.take n := by
  induction n generalizing s with
  | zero => simp [runSteps]
  | succ n ih =>
    cases hq : s.queue with
    | nil =>
      have hp : process_one_request s = (s, .queueEmpty) := by
        simp [process_one_request, RequestQueue.dequeue, hq]
      simp [runSteps, hp, ih, hq]
    | cons r rest =>
      cases hb : borrow_book s.books r.book_id with
      | error e =>
        have hp : process_one_request s = ({ s with queue := rest }, .notFoundFor r) := by
          simp [process_one_request, RequestQueue.dequeue, hq, hb]
        simp [runSteps, hp, ih, hq]
      | ok pr =>
        obtain ⟨flag, bs⟩ := pr
        cases flag with
        | true =>
          have hp : process_one_request s =
              ({ books := bs, queue := rest,
                 history := HistoryStack.push s.history (.borrow r) }, .done r true) := by
            simp [process_one_request, RequestQueue.dequeue, hq, hb]
          simp [runSteps, hp, ih, hq]
        | false =>
          have hp : process_one_request s =
              ({ books := bs, queue := rest,
                 history := HistoryStack.push s.history (.borrowFailed r) }, .done r false) := by
            simp [process_one_request, RequestQueue.dequeue, hq, hb]
          simp [runSteps, hp, ih, hq]

/-- Claim C10: dequeue on an empty request queue and pop on an empty
history stack are total: each reports the `None` sentinel instead of
raising, and leaves the empty structure unchanged. -/
theorem c10_empty_dequeue_pop :
    RequestQueue.dequeue [] = (none, ([] : List Request)) ∧
    HistoryStack.pop [] = (none, ([] : List HistoryItem)) :=
  ⟨rfl, rfl⟩

/-- Claim C5: `borrow_book` fails with `NotFound` when the id is absent;
when present with positive stock it reports success and the record ends
with exactly one copy fewer; when present without stock it reports
failure and returns the catalog unchanged. -/
theorem c5_borrow_book_spec (books : List Book) (bid : String) :
    (findBook books bid = none → borrow_book books bid = .error .notFound) ∧
    (∀ b, findBook books bid = some b → 0 < b.copies →
      ∃ bs, borrow_book books bid = .ok (true, bs) ∧
        findBook bs bid = some { b with copies := b.copies - 1 }) ∧
    (∀ b, findBook books bid = some b → b.copies ≤ 0 →
      borrow_book books bid = .ok (false, books)) := by
  refine ⟨?_, ?_, ?_⟩
  · intro h
    simp [borrow_book, h]
  · intro b hb hpos
    refine ⟨updateFirst books bid (fun x => { x with copies := x.copies - 1 }), ?_, ?_⟩
    · simp [borrow_book, hb, hpos]
    · rw [findBook_updateFirst books bid (fun x => { x with copies := x.copies - 1 })
        (fun x => rfl), hb]
      rfl
  · intro b hb hle
    have : ¬ b.copies > 0 := by omega
    simp [borrow_book, hb, this]

/-- Witness for C5 at concrete catalogs: an absent id, a record with two
copies, and a record with zero copies. -/
theorem c5_witness :
    borrow_book [] "B001" = .error .notFound ∧
    (∃ bs, borrow_book [⟨"B001", "t", "a", 9, 2⟩] "B001" = .ok (true, bs) ∧
      findBook bs "B001" = some ⟨"B001", "t", "a", 9, 2 - 1⟩) ∧
    borrow_book [⟨"B002", "t", "a", 9, 0⟩] "B002" =
      .ok (false, [⟨"B002", "t", "a", 9, 0⟩]) :=
  ⟨(c5_borrow_book_spec [] "B001").1 rfl,
   (c5_borrow_book_spec [⟨"B001", "t", "a", 9, 2⟩] "B001").2.1 _ rfl (by decide),
   (c5_borrow_book_spec [⟨"B002", "t", "a", 9, 0⟩] "B002").2.2 _ rfl (by decide)⟩

/-- Claim C4: the request queue is strictly FIFO: enqueues append at the
back in order, the requests consumed by successive manual steps are an
initial segment of the queue in order, with no reordering, priority or
de-duplication, and in particular after enqueueing A, B, C on an empty
queue three manual steps consume exactly A, then B, then C. -/
theorem c4_fifo_order (s : AppState) (rs : List Request) (n : Nat) :
    (List.foldl app_enqueue s rs).queue = s.queue ++ rs ∧
    (runSteps s n).2 = s.queue.take n ∧
    (∀ A B C : Request, ∀ books hist,
      (runSteps (app_enqueue (app_enqueue (app_enqueue ⟨books, [], hist⟩ A) B) C) 3).2 =
        [A, B, C]) := by
  refine ⟨foldl_enqueue_queue rs s, runSteps_consumed n s, ?_⟩
  intro A B C books hist
  rw [runSteps_consumed]
  simp [app_enqueue, RequestQueue.enqueue]

/-- Counterexample to claim C1: at a state whose queue holds one request
for an id absent from the catalog, the manual step dequeues the request
but appends no history entry at all (the `KeyError` from `borrow_book`
is caught and nothing is pushed), contradicting that exactly one entry
(Borrow or BorrowFailed) is appended whenever the queue is nonempty. -/
theorem c1_counterexample :
    (process_one_request ⟨[], [⟨"R1", "B001", "u"⟩], []⟩).1.queue = [] ∧
    (process_one_request ⟨[], [⟨"R1", "B001", "u"⟩], []⟩).1.history = [] :=
  ⟨rfl, rfl⟩

/-- Claim C1 as amended: one manual step reports QueueEmpty and changes
nothing on an empty queue; otherwise it dequeues exactly the oldest
request and calls borrow on its record id; if the record exists it
appends exactly one entry, Borrow on available stock and BorrowFailed
otherwise; if the record does not exist the caught error causes no
history append; in no case is the request re-queued. -/
theorem c1_amended_step (s : AppState) :
    (s.queue = [] → process_one_request s = (s, .queueEmpty)) ∧
    (∀ req rest, s.queue = req :: rest →
      (process_one_request s).1.queue = rest ∧
      (findBook s.books req.book_id = none →
        (process_one_request s).1 = { s with queue := rest } ∧
        (process_one_request s).2 = .notFoundFor req) ∧
      (∀ b, findBook s.books req.book_id = some b → 0 < b.copies →
        (process_one_request s).1.history = .borrow req :: s.history ∧
        (process_one_request s).2 = .done req true) ∧
      (∀ b, findBook s.books req.book_id = some b → b.copies ≤ 0 →
        (process_one_request s).1.history = .borrowFailed req :: s.history ∧
        (process_one_request s).1.books = s.books ∧
        (process_one_request s).2 = .done req false)) := by
  refine ⟨?_, ?_⟩
  · intro h
    simp [process_one_request, RequestQueue.dequeue, h]
  · intro req rest hq
    refine ⟨?_, ?_, ?_, ?_⟩
    · cases hb : borrow_book s.books req.book_id with
      | error e => simp [process_one_request, RequestQueue.dequeue, hq, hb]
      | ok pr =>
        obtain ⟨flag, bs⟩ := pr
        cases flag <;> simp [process_one_request, RequestQueue.dequeue, hq, hb]
    · intro hf
      have hb : borrow_book s.books req.book_id = .error .notFound := by
        simp [borrow_book, hf]
      simp [process_one_request, RequestQueue.dequeue, hq, hb]
    · intro b hf hpos
      have hb : borrow_book s.books req.book_id =
          .ok (true, updateFirst s.books req.book_id
            (fun x => { x with copies := x.copies - 1 })) := by
        simp [borrow_book, hf, hpos]
      simp [process_one_request, RequestQueue.dequeue, hq, hb, HistoryStack.push]
    · intro b hf hle
      have hnpos : ¬ b.copies > 0 := by omega
      have hb : borrow_book s.books req.book_id = .ok (false, s.books) := by
        simp [borrow_book, hf, hnpos]
      simp [process_one_request, RequestQueue.dequeue, hq, hb, HistoryStack.push]

/-- Witness for the amended C1: the empty-queue report and a successful
borrow appending exactly one Borrow entry, at concrete states. -/
theorem c1_witness :
    process_one_request ⟨[], [], []⟩ = (⟨[], [], []⟩, .queueEmpty) ∧
    ((process_one_request
        ⟨[⟨"B001", "t", "a", 9, 1⟩], [⟨"R1", "B001", "u"⟩], []⟩).1.history =
      .borrow ⟨"R1", "B001", "u"⟩ :: [] ∧
     (process_one_request
        ⟨[⟨"B001", "t", "a", 9, 1⟩], [⟨"R1", "B001", "u"⟩], []⟩).2 =
      .done ⟨"R1", "B001", "u"⟩ true) :=
  ⟨(c1_amended_step ⟨[], [], []⟩).1 rfl,
   ((c1_amended_step ⟨[⟨"B001", "t", "a", 9, 1⟩], [⟨"R1", "B001", "u"⟩], []⟩).2
      ⟨"R1", "B001", "u"⟩ [] rfl).2.2.1 ⟨"B001", "t", "a", 9, 1⟩ rfl (by decide)⟩

/-- Counterexample to claim C7: at a state whose queue holds one request
for an absent id, the timed tick pushes an `error` history entry while
the manual step pushes nothing, so the two entry points do not have the
same effect on the history ledger. -/
theorem c7_counterexample :
    process_queue_worker ⟨[], [⟨"R1", "B001", "u"⟩], []⟩ ≠
      (process_one_request ⟨[], [⟨"R1", "B001", "u"⟩], []⟩).1 := by
  decide

/-- Claim C7 as amended: the timed tick and the manual step have
identical effect on catalog, queue and history whenever the queue is
empty or the dequeued request references an existing record; when the
record is absent both consume the request and leave the catalog alone,
but the tick additionally pushes an `error` history entry that the
manual step does not push. -/
theorem c7_amended_tick (s : AppState) :
    (s.queue = [] → process_queue_worker s = (process_one_request s).1) ∧
    (∀ req rest, s.queue = req :: rest →
      ((findBook s.books req.book_id).isSome →
        process_queue_worker s = (process_one_request s).1) ∧
      (findBook s.books req.book_id = none →
        process_queue_worker s =
          { (process_one_request s).1 with
            history := .error .notFound :: (process_one_request s).1.history })) := by
  refine ⟨?_, ?_⟩
  · intro h
    simp [process_queue_worker, process_one_request, RequestQueue.dequeue, h]
  · intro req rest hq
    constructor
    · intro hs
      obtain ⟨b, hb⟩ := Option.isSome_iff_exists.mp hs
      by_cases hpos : b.copies > 0
      · have hbb : borrow_book s.books req.book_id =
            .ok (true, updateFirst s.books req.book_id
              (fun x => { x with copies := x.copies - 1 })) := by
          simp [borrow_book, hb, hpos]
        simp [process_queue_worker, process_one_request, RequestQueue.dequeue, hq, hbb]
      · have hbb : borrow_book s.books req.book_id = .ok (false, s.books) := by
          simp [borrow_book, hb, hpos]
        simp [process_queue_worker, process_one_request, RequestQueue.dequeue, hq, hbb]
    · intro hf
      have hbb : borrow_book s.books req.book_id = .error .notFound := by
        simp [borrow_book, hf]
      simp [process_queue_worker, process_one_request, RequestQueue.dequeue, hq, hbb,
        HistoryStack.push]

/-- Witness for the amended C7: tick equals manual step on an empty
queue and on an existing record, and differs by exactly the pushed
`error` entry on an absent record, at concrete states. -/
theorem c7_witness :
    process_queue_worker ⟨[], [], []⟩ = (process_one_request ⟨[], [], []⟩).1 ∧
    process_queue_worker ⟨[⟨"B001", "t", "a", 9, 1⟩], [⟨"R1", "B001", "u"⟩], []⟩ =
      (process_one_request ⟨[⟨"B001", "t", "a", 9, 1⟩], [⟨"R1", "B001", "u"⟩], []⟩).1 ∧
    process_queue_worker ⟨[], [⟨"R1", "B002", "u"⟩], []⟩ =
      { (process_one_request ⟨[], [⟨"R1", "B002", "u"⟩], []⟩).1 with
        history := .error .notFound ::
          (process_one_request ⟨[], [⟨"R1", "B002", "u"⟩], []⟩).1.history } :=
  ⟨(c7_amended_tick ⟨[], [], []⟩).1 rfl,
   ((c7_amended_tick ⟨[⟨"B001", "t", "a", 9, 1⟩], [⟨"R1", "B001", "u"⟩], []⟩).2
      ⟨"R1", "B001", "u"⟩ [] rfl).1 (by decide),
   ((c7_amended_tick ⟨[], [⟨"R1", "B002", "u"⟩], []⟩).2
      ⟨"R1", "B002", "u"⟩ [] rfl).2 rfl⟩

/-- Counterexample to claim C6: undoing a `borrow` entry whose record id
is no longer in the catalog fails with NotFound, yet the popped entry is
not restored: the ledger shrinks from one entry to none, so the failing
operation did not leave all three data structures unchanged. -/
theorem c6_counterexample :
    (undo_last ⟨[], [], [.borrow ⟨"R1", "B001", "u"⟩]⟩).2 = .undoError .notFound ∧
    (undo_last ⟨[], [], [.borrow ⟨"R1", "B001", "u"⟩]⟩).1.history = [] :=
  ⟨rfl, rfl⟩

/-- Claim C6 as amended: a structural error on add, edit, delete or
return leaves the whole state unchanged; a NotFound while processing a
dequeued request leaves catalog and history unchanged but still
consumes the request; a failing undo reversal leaves catalog and queue
unchanged but still removes the popped ledger entry. -/
theorem c6_amended_abort_effects (s : AppState) :
    (∀ b, (app_add s b).2.isSome → (app_add s b).1 = s) ∧
    (∀ bid t a pg cp, (app_edit s bid t a pg cp).2.isSome →
      (app_edit s bid t a pg cp).1 = s) ∧
    (∀ bid, (app_delete s bid).2.isSome → (app_delete s bid).1 = s) ∧
    (∀ bid, (app_return s bid).2.isSome → (app_return s bid).1 = s) ∧
    (∀ req rest, s.queue = req :: rest → findBook s.books req.book_id = none →
      (process_one_request s).1 = { s with queue := rest }) ∧
    (∀ e, (undo_last s).2 = .undoError e →
      (undo_last s).1.books = s.books ∧ (undo_last s).1.queue = s.queue ∧
      (undo_last s).1.history = s.history.tail) := by
  refine ⟨?_, ?_, ?_, ?_, ?_, ?_⟩
  · intro b h
    cases hab : add_book s.books b with
    | error e => simp [app_add, hab]
    | ok bs => simp [app_add, hab] at h
  · intro bid t a pg cp h
    cases hfb : findBook s.books bid with
    | none => simp [app_edit, hfb]
    | some old =>
      cases hub : update_book s.books bid ⟨some t, some a, some pg, some cp⟩ with
      | error e => simp [app_edit, hfb, hub]
      | ok bs => simp [app_edit, hfb, hub] at h
  · intro bid h
    cases hfb : findBook s.books bid with
    | none => simp [app_delete, hfb]
    | some b =>
      cases hdb : delete_book s.books bid with
      | error e => simp [app_delete, hfb, hdb]
      | ok bs => simp [app_delete, hfb, hdb] at h
  · intro bid h
    cases hrb : return_book s.books bid with
    | error e => simp [app_return, hrb]
    | ok bs => simp [app_return, hrb] at h
  · intro req rest hq hf
    have hb : borrow_book s.books req.book_id = .error .notFound := by
      simp [borrow_book, hf]
    simp [process_one_request, RequestQueue.dequeue, hq, hb]
  · intro e he
    cases hh : s.history with
    | nil => simp [undo_last, HistoryStack.pop, hh] at he
    | cons item rest =>
      cases item with
      | add b =>
        by_cases hfb : (findBook s.books b.book_id).isSome
        · cases hdb : delete_book s.books b.book_id with
          | error e2 => simp [undo_last, HistoryStack.pop, hh, hfb, hdb]
          | ok bs => simp [undo_last, HistoryStack.pop, hh, hfb, hdb] at he
        · simp [undo_last, HistoryStack.pop, hh, hfb] at he
      | delete b =>
        cases hab : add_book s.books b with
        | error e2 => simp [undo_last, HistoryStack.pop, hh, hab]
        | ok bs => simp [undo_last, HistoryStack.pop, hh, hab] at he
      | edit before after =>
        cases hub : update_book s.books before.book_id
            ⟨some before.title, some before.author, some before.pages, some before.copies⟩ with
        | error e2 => simp [undo_last, HistoryStack.pop, hh, hub]
        | ok bs => simp [undo_last, HistoryStack.pop, hh, hub] at he
      | borrow req =>
        cases hrb : return_book s.books req.book_id with
        | error e2 => simp [undo_last, HistoryStack.pop, hh, hrb]
        | ok bs => simp [undo_last, HistoryStack.pop, hh, hrb] at he
      | borrowFailed req => simp [undo_last, HistoryStack.pop, hh] at he
      | ret bid =>
        cases hfb : findBook s.books bid with
        | none => simp [undo_last, HistoryStack.pop, hh, hfb]
        | some b =>
          by_cases hpos : b.copies > 0 <;>
            simp [undo_last, HistoryStack.pop, hh, hfb, hpos] at he
      | error e2 => simp [undo_last, HistoryStack.pop, hh] at he

/-- Witness for the amended C6: a duplicate add changes nothing, and a
failing undo of a borrow entry keeps catalog and queue but drops the
popped entry, at concrete states. -/
theorem c6_witness :
    (app_add ⟨[⟨"B001", "t", "a", 9, 1⟩], [], []⟩ ⟨"B001", "u", "v", 3, 2⟩).1 =
      ⟨[⟨"B001", "t", "a", 9, 1⟩], [], []⟩ ∧
    ((undo_last ⟨[], [], [.borrow ⟨"R1", "B001", "u"⟩]⟩).1.books = [] ∧
     (undo_last ⟨[], [], [.borrow ⟨"R1", "B001", "u"⟩]⟩).1.queue = [] ∧
     (undo_last ⟨[], [], [.borrow ⟨"R1", "B001", "u"⟩]⟩).1.history =
       [HistoryItem.borrow ⟨"R1", "B001", "u"⟩].tail) :=
  ⟨(c6_amended_abort_effects ⟨[⟨"B001", "t", "a", 9, 1⟩], [], []⟩).1
     ⟨"B001", "u", "v", 3, 2⟩ (by decide),
   (c6_amended_abort_effects ⟨[], [], [.borrow ⟨"R1", "B001", "u"⟩]⟩).2.2.2.2.2
     .notFound rfl⟩

/-- Claim C2: a successful queued borrow of a record with positive stock
pushes the Borrow entry for that request on top of the ledger, and an
immediate undo pops exactly that entry and restores the catalog,
including the copies count of the record, to its pre-borrow value. -/
theorem c2_borrow_then_undo (s : AppState) (req : Request) (rest : List Request)
    (b : Book) (hq : s.queue = req :: rest)
    (hf : findBook s.books req.book_id = some b) (hpos : 0 < b.copies) :
    (process_one_request s).1.history = .borrow req :: s.history ∧
    (HistoryStack.pop (process_one_request s).1.history).1 = some (.borrow req) ∧
    (undo_last (process_one_request s).1).1.books = s.books ∧
    (undo_last (process_one_request s).1).1.history = s.history ∧
    (undo_last (process_one_request s).1).2 = .undone := by
  have hb : borrow_book s.books req.book_id =
      .ok (true, updateFirst s.books req.book_id
        (fun x => { x with copies := x.copies - 1 })) := by
    simp [borrow_book, hf, hpos]
  have hp1 : (process_one_request s).1 =
      ⟨updateFirst s.books req.book_id (fun x => { x with copies := x.copies - 1 }),
       rest, .borrow req :: s.history⟩ := by
    simp [process_one_request, RequestQueue.dequeue, hq, hb, HistoryStack.push]
  have hfind2 : findBook
      (updateFirst s.books req.book_id (fun x => { x with copies := x.copies - 1 }))
      req.book_id = some { b with copies := b.copies - 1 } := by
    rw [findBook_updateFirst s.books req.book_id
      (fun x => { x with copies := x.copies - 1 }) (fun x => rfl), hf]
    rfl
  have hrb : return_book
      (updateFirst s.books req.book_id (fun x => { x with copies := x.copies - 1 }))
      req.book_id =
      .ok (updateFirst
        (updateFirst s.books req.book_id (fun x => { x with copies := x.copies - 1 }))
        req.book_id (fun x => { x with copies := x.copies + 1 })) := by
    simp [return_book, hfind2]
  have hbooks : updateFirst
      (updateFirst s.books req.book_id (fun x => { x with copies := x.copies - 1 }))
      req.book_id (fun x => { x with copies := x.copies + 1 }) = s.books := by
    rw [updateFirst_updateFirst s.books req.book_id
      (fun x => { x with copies := x.copies - 1 })
      (fun x => { x with copies := x.copies + 1 }) (fun x => rfl)]
    apply updateFirst_eq_self
    intro x
    cases x
    simp
  rw [hp1]
  refine ⟨rfl, rfl, ?_, ?_, ?_⟩ <;>
    simp [undo_last, HistoryStack.pop, hrb, hbooks]

/-- Witness for C2 at a concrete state: one record with two copies, one
queued request for it; after the borrow and the undo the catalog is back
to two copies and the ledger is empty again. -/
theorem c2_witness :
    (process_one_request
        ⟨[⟨"B001", "t", "a", 9, 2⟩], [⟨"R1", "B001", "u"⟩], []⟩).1.history =
      .borrow ⟨"R1", "B001", "u"⟩ :: [] ∧
    (HistoryStack.pop (process_one_request
        ⟨[⟨"B001", "t", "a", 9, 2⟩], [⟨"R1", "B001", "u"⟩], []⟩).1.history).1 =
      some (.borrow ⟨"R1", "B001", "u"⟩) ∧
    (undo_last (process_one_request
        ⟨[⟨"B001", "t", "a", 9, 2⟩], [⟨"R1", "B001", "u"⟩], []⟩).1).1.books =
      [⟨"B001", "t", "a", 9, 2⟩] ∧
    (undo_last (process_one_request
        ⟨[⟨"B001", "t", "a", 9, 2⟩], [⟨"R1", "B001", "u"⟩], []⟩).1).1.history = [] ∧
    (undo_last (process_one_request
        ⟨[⟨"B001", "t", "a", 9, 2⟩], [⟨"R1", "B001", "u"⟩], []⟩).1).2 = .undone :=
  c2_borrow_then_undo ⟨[⟨"B001", "t", "a", 9, 2⟩], [⟨"R1", "B001", "u"⟩], []⟩
    ⟨"R1", "B001", "u"⟩ [] ⟨"B001", "t", "a", 9, 2⟩ rfl (by decide) (by decide)

/-- Claim C3: a return immediately followed by undo restores the record
copies to the pre-return value (assuming the invariant that copies was
non-negative), and the Return reversal is clamped at zero: undoing a
`return` entry for a record whose copies count is 0 changes nothing, so
copies never becomes negative. -/
theorem c3_return_then_undo (s : AppState) (bid : String) (b : Book) :
    (findBook s.books bid = some b → 0 ≤ b.copies →
      (app_return s bid).1.history = .ret bid :: s.history ∧
      (undo_last (app_return s bid).1).1.books = s.books ∧
      (undo_last (app_return s bid).1).1.history = s.history ∧
      (undo_last (app_return s bid).1).2 = .undone) ∧
    (∀ h, s.history = .ret bid :: h → findBook s.books bid = some b →
      b.copies = 0 →
      (undo_last s).1.books = s.books ∧ (undo_last s).2 = .undone) := by
  constructor
  · intro hf hnn
    have hrb : return_book s.books bid =
        .ok (updateFirst s.books bid (fun x => { x with copies := x.copies + 1 })) := by
      simp [return_book, hf]
    have hp1 : (app_return s bid).1 =
        ⟨updateFirst s.books bid (fun x => { x with copies := x.copies + 1 }),
         s.queue, .ret bid :: s.history⟩ := by
      simp [app_return, hrb, HistoryStack.push]
    have hfind2 : findBook
        (updateFirst s.books bid (fun x => { x with copies := x.copies + 1 })) bid =
        some { b with copies := b.copies + 1 } := by
      rw [findBook_updateFirst s.books bid
        (fun x => { x with copies := x.copies + 1 }) (fun x => rfl), hf]
      rfl
    have hcpos : ({ b with copies := b.copies + 1 } : Book).copies > 0 := by
      simp
      omega
    have hbooks : updateFirst
        (updateFirst s.books bid (fun x => { x with copies := x.copies + 1 }))
        bid (fun x => { x with copies := x.copies - 1 }) = s.books := by
      rw [updateFirst_updateFirst s.books bid
        (fun x => { x with copies := x.copies + 1 })
        (fun x => { x with copies := x.copies - 1 }) (fun x => rfl)]
      apply updateFirst_eq_self
      intro x
      cases x
      simp
    rw [hp1]
    refine ⟨rfl, ?_, ?_, ?_⟩ <;>
      simp [undo_last, HistoryStack.pop, hfind2, hcpos, hbooks]
  · intro h hh hf hc0
    have hnpos : ¬ b.copies > 0 := by omega
    simp [undo_last, HistoryStack.pop, hh, hf, hnpos]

/-- Witness for C3 at concrete states: return then undo on a record with
one copy restores one copy, and undoing a `return` entry on a record
with zero copies changes nothing. -/
theorem c3_witness :
    ((app_return ⟨[⟨"B001", "t", "a", 9, 1⟩], [], []⟩ "B001").1.history =
       .ret "B001" :: [] ∧
     (undo_last (app_return ⟨[⟨"B001", "t", "a", 9, 1⟩], [], []⟩ "B001").1).1.books =
       [⟨"B001", "t", "a", 9, 1⟩] ∧
     (undo_last (app_return ⟨[⟨"B001", "t", "a", 9, 1⟩], [], []⟩ "B001").1).1.history =
       [] ∧
     (undo_last (app_return ⟨[⟨"B001", "t", "a", 9, 1⟩], [], []⟩ "B001").1).2 =
       .undone) ∧
    ((undo_last ⟨[⟨"B002", "t", "a", 9, 0⟩], [], [.ret "B002"]⟩).1.books =
       [⟨"B002", "t", "a", 9, 0⟩] ∧
     (undo_last ⟨[⟨"B002", "t", "a", 9, 0⟩], [], [.ret "B002"]⟩).2 = .undone) :=
  ⟨(c3_return_then_undo ⟨[⟨"B001", "t", "a", 9, 1⟩], [], []⟩ "B001"
      ⟨"B001", "t", "a", 9, 1⟩).1 (by decide) (by decide),
   (c3_return_then_undo ⟨[⟨"B002", "t", "a", 9, 0⟩], [], [.ret "B002"]⟩ "B002"
      ⟨"B002", "t", "a", 9, 0⟩).2 [] rfl (by decide) (by decide)⟩

/-- Claim C8: starting from a state where every catalog record and every
restorable snapshot has non-negative copies, each operation that can
change a copies count (add with a non-negative input, edit with a
non-negative copies input, delete, return, enqueue, both processing
entry points and every undo reversal) preserves that invariant, so
copies never becomes negative. -/
theorem c8_copies_nonneg (s : AppState) (hs : InvState s) :
    (∀ b : Book, 0 ≤ b.copies → InvState (app_add s b).1) ∧
    (∀ bid t a pg cp, 0 ≤ cp → InvState (app_edit s bid t a pg cp).1) ∧
    (∀ bid, InvState (app_delete s bid).1) ∧
    (∀ bid, InvState (app_return s bid).1) ∧
    (∀ req, InvState (app_enqueue s req)) ∧
    InvState (process_one_request s).1 ∧
    InvState (process_queue_worker s) ∧
    InvState (undo_last s).1 := by
  obtain ⟨hnb, hnh⟩ := hs
  refine ⟨?_, ?_, ?_, ?_, ?_, ?_, ?_, ?_⟩
  · -- add
    intro b hb
    by_cases hdup : (findBook s.books b.book_id).isSome
    · have hres : (app_add s b).1 = s := by simp [app_add, add_book, hdup]
      rw [hres]; exact ⟨hnb, hnh⟩
    · have hres : (app_add s b).1 =
          ⟨s.books ++ [b], s.queue, .add b :: s.history⟩ := by
        simp [app_add, add_book, hdup, HistoryStack.push]
      rw [hres]
      refine ⟨?_, ?_⟩
      · intro x hx
        rcases List.mem_append.mp hx with h1 | h1
        · exact hnb x h1
        · rw [List.mem_singleton] at h1
          rw [h1]; exact hb
      · intro i hi
        rcases List.mem_cons.mp hi with rfl | h1
        · trivial
        · exact hnh i h1
  · -- edit
    intro bid t a pg cp hcp
    cases hfind : findBook s.books bid with
    | none =>
      have hres : (app_edit s bid t a pg cp).1 = s := by simp [app_edit, hfind]
      rw [hres]; exact ⟨hnb, hnh⟩
    | some old =>
      have hub : update_book s.books bid ⟨some t, some a, some pg, some cp⟩ =
          .ok (updateFirst s.books bid
            (applyPatch ⟨some t, some a, some pg, some cp⟩)) := by
        simp [update_book, hfind]
      have hres : (app_edit s bid t a pg cp).1 =
          ⟨updateFirst s.books bid (applyPatch ⟨some t, some a, some pg, some cp⟩),
           s.queue,
           .edit old (applyPatch ⟨some t, some a, some pg, some cp⟩ old) ::
             s.history⟩ := by
        simp [app_edit, hfind, hub, HistoryStack.push]
      rw [hres]
      refine ⟨?_, ?_⟩
      · exact nonneg_updateFirst hfind (by simpa [applyPatch] using hcp) hnb
      · intro i hi
        rcases List.mem_cons.mp hi with rfl | h1
        · exact hnb old (findBook_mem hfind)
        · exact hnh i h1
  · -- delete
    intro bid
    cases hfind : findBook s.books bid with
    | none =>
      have hres : (app_delete s bid).1 = s := by simp [app_delete, hfind]
      rw [hres]; exact ⟨hnb, hnh⟩
    | some b =>
      have hdb : delete_book s.books bid = .ok (deleteFirst s.books bid) := by
        simp [delete_book, hfind]
      have hres : (app_delete s bid).1 =
          ⟨deleteFirst s.books bid, s.queue, .delete b :: s.history⟩ := by
        simp [app_delete, hfind, hdb, HistoryStack.push]
      rw [hres]
      refine ⟨?_, ?_⟩
      · intro x hx
        exact hnb x (mem_deleteFirst hx)
      · intro i hi
        rcases List.mem_cons.mp hi with rfl | h1
        · exact hnb b (findBook_mem hfind)
        · exact hnh i h1
  · -- return
    intro bid
    cases hfind : findBook s.books bid with
    | none =>
      have hres : (app_return s bid).1 = s := by simp [app_return, return_book, hfind]
      rw [hres]; exact ⟨hnb, hnh⟩
    | some b =>
      have hrb : return_book s.books bid =
          .ok (updateFirst s.books bid (fun x => { x with copies := x.copies + 1 })) := by
        simp [return_book, hfind]
      have hres : (app_return s bid).1 =
          ⟨updateFirst s.books bid (fun x => { x with copies := x.copies + 1 }),
           s.queue, .ret bid :: s.history⟩ := by
        simp [app_return, hrb, HistoryStack.push]
      rw [hres]
      have hbm := hnb b (findBook_mem hfind)
      refine ⟨nonneg_updateFirst hfind (by simp; omega) hnb, ?_⟩
      intro i hi
      rcases List.mem_cons.mp hi with rfl | h1
      · trivial
      · exact hnh i h1
  · -- enqueue
    intro req
    exact ⟨hnb, hnh⟩
  · -- manual step
    cases hq : s.queue with
    | nil =>
      have hres : (process_one_request s).1 = s := by
        simp [process_one_request, RequestQueue.dequeue, hq]
      rw [hres]; exact ⟨hnb, hnh⟩
    | cons req rest =>
      cases hfind : findBook s.books req.book_id with
      | none =>
        have hb : borrow_book s.books req.book_id = .error .notFound := by
          simp [borrow_book, hfind]
        have hres : (process_one_request s).1 = { s with queue := rest } := by
          simp [process_one_request, RequestQueue.dequeue, hq, hb]
        rw [hres]; exact ⟨hnb, hnh⟩
      | some b =>
        have hbm := hnb b (findBook_mem hfind)
        by_cases hpos : b.copies > 0
        · have hb : borrow_book s.books req.book_id =
              .ok (true, updateFirst s.books req.book_id
                (fun x => { x with copies := x.copies - 1 })) := by
            simp [borrow_book, hfind, hpos]
          have hres : (process_one_request s).1 =
              ⟨updateFirst s.books req.book_id
                 (fun x => { x with copies := x.copies - 1 }),
               rest, .borrow req :: s.history⟩ := by
            simp [process_one_request, RequestQueue.dequeue, hq, hb, HistoryStack.push]
          rw [hres]
          refine ⟨nonneg_updateFirst hfind (by simp; omega) hnb, ?_⟩
          intro i hi
          rcases List.mem_cons.mp hi with rfl | h1
          · trivial
          · exact hnh i h1
        · have hb : borrow_book s.books req.book_id = .ok (false, s.books) := by
            simp [borrow_book, hfind, hpos]
          have hres : (process_one_request s).1 =
              ⟨s.books, rest, .borrowFailed req :: s.history⟩ := by
            simp [process_one_request, RequestQueue.dequeue, hq, hb, HistoryStack.push]
          rw [hres]
          refine ⟨hnb, ?_⟩
          intro i hi
          rcases List.mem_cons.mp hi with rfl | h1
          · trivial
          · exact hnh i h1
  · -- timed tick
    cases hq : s.queue with
    | nil =>
      have hres : process_queue_worker s = s := by
        simp [process_queue_worker, RequestQueue.dequeue, hq]
      rw [hres]; exact ⟨hnb, hnh⟩
    | cons req rest =>
      cases hfind : findBook s.books req.book_id with
      | none =>
        have hb : borrow_book s.books req.book_id = .error .notFound := by
          simp [borrow_book, hfind]
        have hres : process_queue_worker s =
            { s with
              queue := rest
              history := .error .notFound :: s.history } := by
          simp [process_queue_worker, RequestQueue.dequeue, hq, hb, HistoryStack.push]
        rw [hres]
        refine ⟨hnb, ?_⟩
        intro i hi
        rcases List.mem_cons.mp hi with rfl | h1
        · trivial
        · exact hnh i h1
      | some b =>
        have hbm := hnb b (findBook_mem hfind)
        by_cases hpos : b.copies > 0
        · have hb : borrow_book s.books req.book_id =
              .ok (true, updateFirst s.books req.book_id
                (fun x => { x with copies := x.copies - 1 })) := by
            simp [borrow_book, hfind, hpos]
          have hres : process_queue_worker s =
              ⟨updateFirst s.books req.book_id
                 (fun x => { x with copies := x.copies - 1 }),
               rest, .borrow req :: s.history⟩ := by
            simp [process_queue_worker, RequestQueue.dequeue, hq, hb, HistoryStack.push]
          rw [hres]
          refine ⟨nonneg_updateFirst hfind (by simp; omega) hnb, ?_⟩
          intro i hi
          rcases List.mem_cons.mp hi with rfl | h1
          · trivial
          · exact hnh i h1
        · have hb : borrow_book s.books req.book_id = .ok (false, s.books) := by
            simp [borrow_book, hfind, hpos]
          have hres : process_queue_worker s =
              ⟨s.books, rest, .borrowFailed req :: s.history⟩ := by
            simp [process_queue_worker, RequestQueue.dequeue, hq, hb, HistoryStack.push]
          rw [hres]
          refine ⟨hnb, ?_⟩
          intro i hi
          rcases List.mem_cons.mp hi with rfl | h1
          · trivial
          · exact hnh i h1
  · -- undo
    cases hh : s.history with
    | nil =>
      have hres : (undo_last s).1 = s := by simp [undo_last, HistoryStack.pop, hh]
      rw [hres]; exact ⟨hnb, hnh⟩
    | cons item rest =>
      have hresth : ∀ i ∈ rest, itemNonNeg i := by
        intro i hi
        exact hnh i (by rw [hh]; exact List.mem_cons_of_mem _ hi)
      have hitem : itemNonNeg item := hnh item (by rw [hh]; exact List.mem_cons_self _ _)
      cases item with
      | add b =>
        by_cases hfb : (findBook s.books b.book_id).isSome
        · have hdb : delete_book s.books b.book_id =
              .ok (deleteFirst s.books b.book_id) := by
            simp [delete_book, hfb]
          have hres : (undo_last s).1 =
              ⟨deleteFirst s.books b.book_id, s.queue, rest⟩ := by
            simp [undo_last, HistoryStack.pop, hh, hfb, hdb]
          rw [hres]
          exact ⟨fun x hx => hnb x (mem_deleteFirst hx), hresth⟩
        · have hres : (undo_last s).1 = { s with history := rest } := by
            simp [undo_last, HistoryStack.pop, hh, hfb]
          rw [hres]; exact ⟨hnb, hresth⟩
      | edit before after =>
        cases hfind : findBook s.books before.book_id with
        | none =>
          have hub : update_book s.books before.book_id
              ⟨some before.title, some before.author,
               some before.pages, some before.copies⟩ = .error .notFound := by
            simp [update_book, hfind]
          have hres : (undo_last s).1 = { s with history := rest } := by
            simp [undo_last, HistoryStack.pop, hh, hub]
          rw [hres]; exact ⟨hnb, hresth⟩
        | some b2 =>
          have hub : update_book s.books before.book_id
              ⟨some before.title, some before.author,
               some before.pages, some before.copies⟩ =
              .ok (updateFirst s.books before.book_id
                (applyPatch ⟨some before.title, some before.author,
                  some before.pages, some before.copies⟩)) := by
            simp [update_book, hfind]
          have hres : (undo_last s).1 =
              ⟨updateFirst s.books before.book_id
                 (applyPatch ⟨some before.title, some before.author,
                   some before.pages, some before.copies⟩),
               s.queue, rest⟩ := by
            simp [undo_last, HistoryStack.pop, hh, hub]
          rw [hres]
          have hbefore : 0 ≤ before.copies := hitem
          exact ⟨nonneg_updateFirst hfind (by simpa [applyPatch] using hbefore) hnb,
            hresth⟩
      | delete b =>
        by_cases hdup : (findBook s.books b.book_id).isSome
        · have hab : add_book s.books b = .error .duplicateId := by
            simp [add_book, hdup]
          have hres : (undo_last s).1 = { s with history := rest } := by
            simp [undo_last, HistoryStack.pop, hh, hab]
          rw [hres]; exact ⟨hnb, hresth⟩
        · have hab : add_book s.books b = .ok (s.books ++ [b]) := by
            simp [add_book, hdup]
          have hres : (undo_last s).1 = ⟨s.books ++ [b], s.queue, rest⟩ := by
            simp [undo_last, HistoryStack.pop, hh, hab]
          rw [hres]
          refine ⟨?_, hresth⟩
          intro x hx
          rcases List.mem_append.mp hx with h1 | h1
          · exact hnb x h1
          · rw [List.mem_singleton] at h1
            rw [h1]; exact hitem
      | borrow req =>
        cases hfind : findBook s.books req.book_id with
        | none =>
          have hrb : return_book s.books req.book_id = .error .notFound := by
            simp [return_book, hfind]
          have hres : (undo_last s).1 = { s with history := rest } := by
            simp [undo_last, HistoryStack.pop, hh, hrb]
          rw [hres]; exact ⟨hnb, hresth⟩
        | some b2 =>
          have hbm := hnb b2 (findBook_mem hfind)
          have hrb : return_book s.books req.book_id =
              .ok (updateFirst s.books req.book_id
                (fun x => { x with copies := x.copies + 1 })) := by
            simp [return_book, hfind]
          have hres : (undo_last s).1 =
              ⟨updateFirst s.books req.book_id
                 (fun x => { x with copies := x.copies + 1 }),
               s.queue, rest⟩ := by
            simp [undo_last, HistoryStack.pop, hh, hrb]
          rw [hres]
          exact ⟨nonneg_updateFirst hfind (by simp; omega) hnb, hresth⟩
      | borrowFailed req =>
        have hres : (undo_last s).1 = { s with history := rest } := by
          simp [undo_last, HistoryStack.pop, hh]
        rw [hres]; exact ⟨hnb, hresth⟩
      | ret bid =>
        cases hfind : findBook s.books bid with
        | none =>
          have hres : (undo_last s).1 = { s with history := rest } := by
            simp [undo_last, HistoryStack.pop, hh, hfind]
          rw [hres]; exact ⟨hnb, hresth⟩
        | some b2 =>
          have hbm := hnb b2 (findBook_mem hfind)
          by_cases hpos : b2.copies > 0
          · have hres : (undo_last s).1 =
                ⟨updateFirst s.books bid
                   (fun x => { x with copies := x.copies - 1 }),
                 s.queue, rest⟩ := by
              simp [undo_last, HistoryStack.pop, hh, hfind, hpos]
            rw [hres]
            exact ⟨nonneg_updateFirst hfind (by simp; omega) hnb, hresth⟩
          · have hres : (undo_last s).1 = { s with history := rest } := by
              simp [undo_last, HistoryStack.pop, hh, hfind, hpos]
            rw [hres]; exact ⟨hnb, hresth⟩
      | error e =>
        have hres : (undo_last s).1 = { s with history := rest } := by
          simp [undo_last, HistoryStack.pop, hh]
        rw [hres]; exact ⟨hnb, hresth⟩

/-- Witness for C8 at a concrete valid state: one record with one copy,
one pending request and a return entry on the ledger; the invariant is
preserved by a processing step and by an undo. -/
theorem c8_witness :
    InvState (process_one_request
      ⟨[⟨"B001", "t", "a", 9, 1⟩], [⟨"R1", "B001", "u"⟩], [.ret "B001"]⟩).1 ∧
    InvState (undo_last
      ⟨[⟨"B001", "t", "a", 9, 1⟩], [⟨"R1", "B001", "u"⟩], [.ret "B001"]⟩).1 :=
  have hs : InvState ⟨[⟨"B001", "t", "a", 9, 1⟩], [⟨"R1", "B001", "u"⟩],
      [.ret "B001"]⟩ := by
    constructor
    · intro b hb
      rw [List.mem_singleton] at hb
      rw [hb]
      norm_num
    · intro i hi
      rw [List.mem_singleton] at hi
      rw [hi]
      trivial
  ⟨(c8_copies_nonneg _ hs).2.2.2.2.2.1,
   (c8_copies_nonneg _ hs).2.2.2.2.2.2.2⟩

/-- Counterexample to claim C9, on the src/apo.py variant: `add_book`
pushes the live `Book` object into its undo entry, so after an in-place
edit of that record the payload the entry refers to has changed from the
original snapshot to the edited values; the entry is still sitting on
the undo stack. -/
theorem c9_counterexample :
    (apo_edit_book (apo_add_book ⟨[], [], [], []⟩ "T" "A" "2020")
        0 "T2" "A2" "2021").undo_stack.get? 1 = some (.del 0) ∧
    apoEntryPayload (apo_add_book ⟨[], [], [], []⟩ "T" "A" "2020") (.del 0) =
      some ⟨"T", "A", "2020", "Tersedia"⟩ ∧
    apoEntryPayload (apo_edit_book (apo_add_book ⟨[], [], [], []⟩ "T" "A" "2020")
        0 "T2" "A2" "2021") (.del 0) =
      some ⟨"T2", "A2", "2021", "Tersedia"⟩ :=
  ⟨rfl, rfl, rfl⟩

/-- Claim C9 as amended: in the src/apa.py and src/apipi.py variants the
pushed payloads are value snapshots and no operation rewrites an entry
already on the ledger: every operation leaves the previous history as an
unchanged suffix, and undo only removes the top entry; in the src/apo.py
variant the claim fails because undo entries hold references into the
live catalog (see the counterexample). -/
theorem c9_amended_snapshots (s : AppState) :
    (∀ b, ∃ pre, (app_add s b).1.history = pre ++ s.history) ∧
    (∀ bid t a pg cp, ∃ pre, (app_edit s bid t a pg cp).1.history = pre ++ s.history) ∧
    (∀ bid, ∃ pre, (app_delete s bid).1.history = pre ++ s.history) ∧
    (∀ bid, ∃ pre, (app_return s bid).1.history = pre ++ s.history) ∧
    (∃ pre, (process_one_request s).1.history = pre ++ s.history) ∧
    (∃ pre, (process_queue_worker s).history = pre ++ s.history) ∧
    (undo_last s).1.history = s.history.tail := by
  refine ⟨?_, ?_, ?_, ?_, ?_, ?_, ?_⟩
  · intro b
    by_cases hdup : (findBook s.books b.book_id).isSome
    · exact ⟨[], by simp [app_add, add_book, hdup]⟩
    · exact ⟨[.add b], by simp [app_add, add_book, hdup, HistoryStack.push]⟩
  · intro bid t a pg cp
    cases hfind : findBook s.books bid with
    | none => exact ⟨[], by simp [app_edit, hfind]⟩
    | some old =>
      refine ⟨[.edit old (applyPatch ⟨some t, some a, some pg, some cp⟩ old)], ?_⟩
      simp [app_edit, hfind, update_book, HistoryStack.push]
  · intro bid
    cases hfind : findBook s.books bid with
    | none => exact ⟨[], by simp [app_delete, hfind]⟩
    | some b =>
      exact ⟨[.delete b], by simp [app_delete, hfind, delete_book, HistoryStack.push]⟩
  · intro bid
    cases hfind : findBook s.books bid with
    | none => exact ⟨[], by simp [app_return, return_book, hfind]⟩
    | some b =>
      exact ⟨[.ret bid], by simp [app_return, return_book, hfind, HistoryStack.push]⟩
  · cases hq : s.queue with
    | nil => exact ⟨[], by simp [process_one_request, RequestQueue.dequeue, hq]⟩
    | cons req rest =>
      cases hb : borrow_book s.books req.book_id with
      | error e =>
        exact ⟨[], by simp [process_one_request, RequestQueue.dequeue, hq, hb]⟩
      | ok pr =>
        obtain ⟨flag, bs⟩ := pr
        cases flag with
        | true =>
          exact ⟨[.borrow req], by
            simp [process_one_request, RequestQueue.dequeue, hq, hb, HistoryStack.push]⟩
        | false =>
          exact ⟨[.borrowFailed req], by
            simp [process_one_request, RequestQueue.dequeue, hq, hb, HistoryStack.push]⟩
  · cases hq : s.queue with
    | nil => exact ⟨[], by simp [process_queue_worker, RequestQueue.dequeue, hq]⟩
    | cons req rest =>
      cases hb : borrow_book s.books req.book_id with
      | error e =>
        exact ⟨[.error e], by
          simp [process_queue_worker, RequestQueue.dequeue, hq, hb, HistoryStack.push]⟩
      | ok pr =>
        obtain ⟨flag, bs⟩ := pr
        cases flag with
        | true =>
          exact ⟨[.borrow req], by
            simp [process_queue_worker, RequestQueue.dequeue, hq, hb, HistoryStack.push]⟩
        | false =>
          exact ⟨[.borrowFailed req], by
            simp [process_queue_worker, RequestQueue.dequeue, hq, hb, HistoryStack.push]⟩
  · cases hh : s.history with
    | nil => simp [undo_last, HistoryStack.pop, hh]
    | cons item rest =>
      cases item with
      | add b =>
        by_cases hfb : (findBook s.books b.book_id).isSome
        · cases hdb : delete_book s.books b.book_id <;>
            simp [undo_last, HistoryStack.pop, hh, hfb, hdb]
        · simp [undo_last, HistoryStack.pop, hh, hfb]
      | edit before after =>
        cases hub : update_book s.books before.book_id
            ⟨some before.title, some before.author,
             some before.pages, some before.copies⟩ <;>
          simp [undo_last, HistoryStack.pop, hh, hub]
      | delete b =>
        cases hab : add_book s.books b <;>
          simp [undo_last, HistoryStack.pop, hh, hab]
      | borrow req =>
        cases hrb : return_book s.books req.book_id <;>
          simp [undo_last, HistoryStack.pop, hh, hrb]
      | borrowFailed req => simp [undo_last, HistoryStack.pop, hh]
      | ret bid =>
        cases hfind : findBook s.books bid with
        | none => simp [undo_last, HistoryStack.pop, hh, hfind]
        | some b2 =>
          by_cases hpos : b2.copies > 0 <;>
            simp [undo_last, HistoryStack.pop, hh, hfind, hpos]
      | error e => simp [undo_last, HistoryStack.pop, hh]
